import Mathlib

/-!
Verification of the realtimesindy front-end's tool-handler logic.

The repository wires OpenAI-realtime "tools" to REST calls against the
Superlógica condominium backend and a z-api WhatsApp OTP endpoint, plus a
Heygen streaming-avatar hook.  This file shallowly embeds the handlers of
`src/pages/ConsolePage.tsx` / `src/pages/Main.tsx` and `src/utils/heygen.ts`:
each handler becomes a pure function from its arguments and the HTTP
response it receives to the list of requests it issues together with its
result (`Except` models a thrown `Error`).  JavaScript regex `replace`
calls (non-global, so first-match only) are embedded as explicit scanning
functions over `List Char`.
-/

set_option maxHeartbeats 1000000

/-! ## HTTP model -/

/-- Status line of a fetch response; `ok` mirrors `Response.ok`
(status in the 2xx range). -/
structure HttpStatus where
  status : Nat
  statusText : String
deriving Repr, DecidableEq

def HttpStatus.ok (r : HttpStatus) : Bool :=
  decide (200 ≤ r.status) && decide (r.status ≤ 299)

/-- An outbound HTTP request as issued by `fetch`.  The JSON body is kept as
an association list of its top-level fields in insertion order. -/
structure Request where
  method : String
  url : String
  headers : List (String × String)
  body : List (String × String)
deriving Repr, DecidableEq

/-- The `{ data: arr }` object the Superlógica tool handlers return. -/
structure ToolResult (α : Type) where
  data : List α
deriving Repr, DecidableEq

/-! ## JavaScript regex `replace` embeddings

The handlers use three non-global regexes; `String.prototype.replace` with a
non-global regex rewrites only the leftmost match.  Each is embedded as a
left-to-right scan over the character list. -/

/-- Character class `\s` of JavaScript regexes (ASCII and Unicode
whitespace, including NBSP, the line separators and the BOM). -/
def jsWhitespace (c : Char) : Bool :=
  [9, 10, 11, 12, 13, 32, 160, 0x1680, 0x2000, 0x2001, 0x2002, 0x2003,
   0x2004, 0x2005, 0x2006, 0x2007, 0x2008, 0x2009, 0x200a, 0x2028, 0x2029,
   0x202f, 0x205f, 0x3000, 0xfeff].contains c.toNat

/-- Does `/\s\d{2}:\d{2}:\d{2}/` match at the head of the list? -/
def timeMatch : List Char → Bool
  | w :: d1 :: d2 :: c1 :: d3 :: d4 :: c2 :: d5 :: d6 :: _ =>
    jsWhitespace w && d1.isDigit && d2.isDigit && c1 == ':' && d3.isDigit &&
      d4.isDigit && c2 == ':' && d5.isDigit && d6.isDigit
  | _ => false

/-- `.replace(/\s\d{2}:\d{2}:\d{2}/, '')`: delete the first (leftmost)
whitespace-plus-`hh:mm:ss` block, if any. -/
def delTimeList : List Char → List Char
  | [] => []
  | c :: rest =>
    if timeMatch (c :: rest) then List.drop 8 rest
    else c :: delTimeList rest

/-- Does `/(\d{2})\/(\d{2})\/(\d{4})/` match at the head of the list? -/
def dateMatch : List Char → Bool
  | d1 :: d2 :: s1 :: m1 :: m2 :: s2 :: y1 :: y2 :: y3 :: y4 :: _ =>
    d1.isDigit && d2.isDigit && s1 == '/' && m1.isDigit && m2.isDigit &&
      s2 == '/' && y1.isDigit && y2.isDigit && y3.isDigit && y4.isDigit
  | _ => false

/-- Replacement `'$2/$1/$3'` applied to a list whose head matches
`dateMatch`: the first two 2-digit groups are swapped. -/
def dateSwapHead : List Char → List Char
  | d1 :: d2 :: _ :: m1 :: m2 :: _ :: rest =>
    m1 :: m2 :: '/' :: d1 :: d2 :: '/' :: rest
  | l => l

/-- `.replace(/(\d{2})\/(\d{2})\/(\d{4})/, '$2/$1/$3')`: swap day and month
in the first (leftmost) `DD/MM/YYYY` occurrence, if any. -/
def swapDateList : List Char → List Char
  | [] => []
  | c :: rest =>
    if dateMatch (c :: rest) then dateSwapHead (c :: rest)
    else c :: swapDateList rest

/-- Both replace calls the billing handler applies to
`dt_geracao_recb` / `dt_vencimento_recb`, in source order. -/
def fixDateString (s : String) : String :=
  ⟨swapDateList (delTimeList s.data)⟩

/-- Alternative `+55`-prefixed of `/(?:\+?55)?(\d{9})$/` at this position:
`+55` followed by exactly nine digits reaching the end of the string. -/
def phoneMatchA : List Char → Bool
  | c1 :: c2 :: c3 :: rest =>
    c1 == '+' && c2 == '5' && c3 == '5' && rest.length == 9 &&
      rest.all Char.isDigit
  | _ => false

/-- Alternative `55`-prefixed of `/(?:\+?55)?(\d{9})$/` at this position:
`55` followed by exactly nine digits reaching the end of the string. -/
def phoneMatchB : List Char → Bool
  | c1 :: c2 :: rest =>
    c1 == '5' && c2 == '5' && rest.length == 9 && rest.all Char.isDigit
  | _ => false

/-- Bare alternative of `/(?:\+?55)?(\d{9})$/` at this position: exactly
nine digits reaching the end of the string. -/
def phoneMatchC (l : List Char) : Bool :=
  l.length == 9 && l.all Char.isDigit

/-- Left-to-right scan of `.replace(/(?:\+?55)?(\d{9})$/, '$1')`.  At each
position the greedy optional group tries `+55`, then `55`, then the empty
alternative; the whole match is replaced by the captured nine digits.
The bare alternative therefore replaces the match by itself. -/
def phoneRepAux : List Char → List Char
  | [] => []
  | c :: rest =>
    if phoneMatchA (c :: rest) then rest.drop 2
    else if phoneMatchB (c :: rest) then rest.drop 1
    else if phoneMatchC (c :: rest) then c :: rest
    else c :: phoneRepAux rest

/-- `formatPhoneNumber` of `ConsolePage.tsx` / `Main.tsx`. -/
def formatPhoneNumber (phone : String) : String :=
  ⟨phoneRepAux phone.data⟩

/-- Is there a position where the `55`-alternative matches, i.e. does the
string end in nine digits immediately preceded by `55`? -/
def hasSuffix55 : List Char → Bool
  | [] => false
  | c :: rest => phoneMatchB (c :: rest) || hasSuffix55 rest

example : formatPhoneNumber "21974894586" = "21974894586" := by decide
example : formatPhoneNumber "5521974894586" = "5521974894586" := by decide
example : formatPhoneNumber "+55974894586" = "974894586" := by decide
example : formatPhoneNumber "55974894586" = "974894586" := by decide
example : fixDateString "03/04/2025 10:11:12" = "04/03/2025" := by decide
example : fixDateString "1 11:11:11 22:22:22" = "1 22:22:22" := by decide

/-! ## Superlógica / z-api tool handlers

Each handler is a function from its schema arguments and the HTTP response
its single `fetch` receives to the pair (requests issued, result).
A thrown `Error` is an `Except.error` carrying the message. -/

def superHeaders : List (String × String) :=
  [("app_token", "6e5ac688-a65e-4f4f-a974-f532a12959dd"),
   ("access_token", "e591a511-83c8-43eb-a7d2-71933d7fb6fd")]

def zApiUrl : String :=
  "https://api.z-api.io/instances/3CEEA0A6BCD2D0E49FB9D6E96DCD545E/token/ECF5B6F24C278CF3BFB55D3C/send-button-otp"

def zApiHeaders : List (String × String) :=
  [("accept", "*/*"),
   ("client-token", "F141ea19bb9ca40c981694b3c825d73f6S"),
   ("Content-Type", "application/json")]

def otpMessage (token : String) : String :=
  "Seu código de verificação para se autenticar na Sindy é " ++ token ++
    ". Não compartilhe-o com ninguém."

def otpErrMsg (st : HttpStatus) : String :=
  "Erro ao enviar OTP: " ++ toString st.status ++ " " ++ st.statusText

def reqErrMsg (st : HttpStatus) : String :=
  "Erro na requisição: " ++ toString st.status ++ " " ++ st.statusText

/-- The `generate_token` tool: POST the OTP to the fixed z-api endpoint,
throw on a non-ok response, return `""` otherwise. -/
def generate_token (phone token : String) (resp : HttpStatus) :
    List Request × Except String String :=
  let req : Request :=
    ⟨"POST", zApiUrl, zApiHeaders,
      [("phone", phone), ("message", otpMessage token), ("code", token)]⟩
  if resp.ok then ([req], .ok "")
  else ([req], .error (otpErrMsg resp))

/-- URL of the `unidades/index` endpoint as assembled by string
concatenation in `get_user_data` (with `idCondominio=-1`) and
`get_contacts` (with the tool's `id_condominio`). -/
def unidadesUrl (idCondominio pesquisa : String) : String :=
  "https://api.superlogica.net/v2/condor/unidades/index?" ++
    ("idCondominio=" ++ idCondominio ++ "&" ++
      "exibirGruposDasUnidades=0&" ++ "itensPorPagina=50&" ++ "pagina=1&" ++
      "exibirDadosDosContatos=1&" ++ "pesquisa=" ++ pesquisa)

/-- A row of the JSON array the `unidades/index` endpoint returns (the
fields the handler reads). -/
structure UnidadeRow where
  st_fantasia_cond : String
  cpf_proprietario : String
  email_proprietario : String
  st_unidade_uni : String
  id_unidade_uni : String
  id_condominio_cond : String
deriving Repr, DecidableEq

/-- An element of the `arrconds` array `get_user_data` builds. -/
structure Cond where
  nome_condominio : String
  cpf_proprietario : String
  email_proprietario : String
  unidade_apartamento : String
  id_unidade : String
  id_condominio : String
  telefone : String
deriving Repr, DecidableEq

def mkCond (telefone : String) (item : UnidadeRow) : Cond :=
  { nome_condominio := item.st_fantasia_cond
    cpf_proprietario := item.cpf_proprietario
    email_proprietario := item.email_proprietario
    unidade_apartamento := item.st_unidade_uni
    id_unidade := item.id_unidade_uni
    id_condominio := item.id_condominio_cond
    telefone := telefone }

/-- The `get_user_data` tool handler. -/
def get_user_data (phone : String) (resp : HttpStatus × List UnidadeRow) :
    List Request × Except String (ToolResult Cond) :=
  let telformatado := formatPhoneNumber phone
  let req : Request := ⟨"GET", unidadesUrl "-1" telformatado, superHeaders, []⟩
  if resp.1.ok then
    ([req], .ok ⟨resp.2.foldl (fun acc item => acc ++ [mkCond telformatado item]) []⟩)
  else ([req], .error (reqErrMsg resp.1))

/-! ### JavaScript `Date` model for the billing window

`new Date(y, m, 5)` normalizes an out-of-range month index into `[0, 11]`,
carrying whole years: year `y + ⌊m / 12⌋`, month `m mod 12`.
`toLocaleDateString('en-US')` renders `M/D/YYYY` with the 1-based month. -/

def jsDateNorm (y m : Int) : Int × Int :=
  (y + m / 12, m % 12)

def enUSDateString (y monthIdx d : Int) : String :=
  toString (monthIdx + 1) ++ "/" ++ toString d ++ "/" ++ toString y

/-- `new Date(getFullYear(), getMonth() - 2, 5).toLocaleDateString('en-US')`
where `y`/`m` are the current year and 0-based month. -/
def dtInicioStr (y m : Int) : String :=
  enUSDateString (jsDateNorm y (m - 2)).1 (jsDateNorm y (m - 2)).2 5

/-- `new Date(getFullYear(), getMonth() + 1, 5).toLocaleDateString('en-US')`
where `y`/`m` are the current year and 0-based month. -/
def dtFimStr (y m : Int) : String :=
  enUSDateString (jsDateNorm y (m + 1)).1 (jsDateNorm y (m + 1)).2 5

/-- URL of the `cobranca/index` endpoint as assembled in
`get_payment_link`. -/
def cobrancaUrl (idCondominio dtInicio dtFim idUnidade : String) : String :=
  "https://api.superlogica.net/v2/condor/cobranca/index?" ++
    ("status=validos&" ++ "apenasColunasPrincipais=1&" ++
      "exibirPgtoComDiferenca=1&" ++ "comContatosDaUnidade=1&" ++
      "idCondominio=" ++ idCondominio ++ "&" ++
      "dtInicio=" ++ dtInicio ++ "&" ++ "dtFim=" ++ dtFim ++ "&" ++
      "UNIDADES[0]=" ++ idUnidade)

/-- The `item.json` object of a row returned by `cobranca/index` (the
fields the handler reads; `status` is `none` when the property is
`undefined`). -/
structure CobRow where
  status : Option String
  dt_geracao_recb : String
  dt_vencimento_recb : String
  vl_emitido_recb : String
  nm_txjuros_cond : String
  nm_txmulta_cond : String
  fl_status_recb : String
  vl_total_recb : String
  st_pixqrcode_recb : String
  link_segundavia : String
deriving Repr, DecidableEq

/-- A row of the `cobranca/index` response array; the handler only reads
its `json` property. -/
structure CobItem where
  json : CobRow
deriving Repr, DecidableEq

/-- An element of the `arrCobrancas` array `get_payment_link` builds;
`none` models an absent property. -/
structure Cobranca where
  data_boleto : String
  vencimento : String
  valor : String
  juros : Option String
  multa : Option String
  status : Option String
  total : String
  pix : String
  link : String
deriving Repr, DecidableEq

def mkCobranca (r : CobRow) : Cobranca :=
  { data_boleto := fixDateString r.dt_geracao_recb
    vencimento := fixDateString r.dt_vencimento_recb
    valor := r.vl_emitido_recb
    juros := if r.nm_txjuros_cond ≠ "" then some r.nm_txjuros_cond else none
    multa := if r.nm_txmulta_cond ≠ "" then some r.nm_txmulta_cond else none
    status :=
      if r.fl_status_recb ≠ "" then
        some (if r.fl_status_recb = "3" then "Pago" else "Pendente")
      else none
    total := r.vl_total_recb
    pix := r.st_pixqrcode_recb
    link := r.link_segundavia }

/-- The `get_payment_link` tool handler; `y`/`m` are `getFullYear()` and
the 0-based `getMonth()` of the current date. -/
def get_payment_link (y m : Int) (phone id_condominio id_unidade : String)
    (resp : HttpStatus × List CobItem) :
    List Request × Except String (ToolResult Cobranca) :=
  let _telformatado := formatPhoneNumber phone
  let req : Request :=
    ⟨"GET", cobrancaUrl id_condominio (dtInicioStr y m) (dtFimStr y m) id_unidade,
      superHeaders, []⟩
  if resp.1.ok then
    ([req],
      .ok ⟨resp.2.foldl
        (fun acc item =>
          if item.json.status.isSome then acc ++ [mkCobranca item.json] else acc)
        []⟩)
  else ([req], .error (reqErrMsg resp.1))

/-- A row of `json.contatos` in the `get_contacts` response (the fields the
handler reads; empty strings are the falsy case of the `?:` chains). -/
structure ContatoRow where
  st_nome_con : String
  st_nometiporesp_tres : String
  st_telefone_con : String
  st_fax_con : String
  st_cpf_con : String
deriving Repr, DecidableEq

/-- The `get_contacts` response object: the handler iterates over its
`contatos` property. -/
structure ContatosResp where
  contatos : List ContatoRow
deriving Repr, DecidableEq

/-- An element of the `arrContatos` array `get_contacts` builds. -/
structure Contato where
  nome : String
  tipo : String
  telefone : String
  cpf : String
deriving Repr, DecidableEq

def mkContato (item : ContatoRow) : Contato :=
  { nome := item.st_nome_con
    tipo := item.st_nometiporesp_tres
    telefone :=
      if item.st_telefone_con ≠ "" then item.st_telefone_con
      else if item.st_fax_con ≠ "" then item.st_fax_con
      else ""
    cpf := item.st_cpf_con }

/-- The `get_contacts` tool handler. -/
def get_contacts (phone id_condominio : String)
    (resp : HttpStatus × ContatosResp) :
    List Request × Except String (ToolResult Contato) :=
  let telformatado := formatPhoneNumber phone
  let req : Request :=
    ⟨"GET", unidadesUrl id_condominio telformatado, superHeaders, []⟩
  if resp.1.ok then
    ([req], .ok ⟨resp.2.contatos.foldl (fun acc item => acc ++ [mkContato item]) []⟩)
  else ([req], .error (reqErrMsg resp.1))

/-- The `get_llmbuilder` tool handler: `async () => ""` — no fetch at all. -/
def get_llmbuilder (_phone _condomino : String) :
    List Request × Except String String :=
  ([], .ok "")

/-- The `requestAssistance` tool handler: `async () => ""` — no fetch at
all. -/
def requestAssistance (_phone : String) :
    List Request × Except String String :=
  ([], .ok "")

/-! ## Page state and the connect/disconnect callbacks (`ConsolePage.tsx`)

The `useState` hooks of `ConsolePage` are gathered into one record; the
item, key-value, coordinate and expanded-event payload types are
parameters, since the callbacks never inspect them. -/

/-- The `event` object of a logged realtime event; the log handler only
inspects its `type` property, the remaining properties are carried
opaquely. -/
structure EventObj where
  type : String
  rest : List (String × String)
deriving Repr, DecidableEq

/-- The `RealtimeEvent` interface of `ConsolePage.tsx` / `Main.tsx`;
`count` is `none` when the property is absent. -/
structure RealtimeEvent where
  time : String
  source : String
  count : Option Nat
  event : EventObj
deriving Repr, DecidableEq

/-- The `useState` pieces of `ConsolePage`. -/
structure PageState (Item KV Coord EMap : Type) where
  items : List Item
  realtimeEvents : List RealtimeEvent
  expandedEvents : EMap
  isConnected : Bool
  canPushToTalk : Bool
  isRecording : Bool
  memoryKv : KV
  coords : Option Coord
  marker : Option Coord
  userData : KV

/-- State effect of `connectConversation`: `setIsConnected(true)`,
`setRealtimeEvents([])`, `setItems(client.conversation.getItems())`.
(The audio/client side effects are external.) -/
def connectConversation {Item KV Coord EMap : Type}
    (s : PageState Item KV Coord EMap) (clientItems : List Item) :
    PageState Item KV Coord EMap :=
  { s with isConnected := true, realtimeEvents := [], items := clientItems }

/-- State effect of `disconnectConversation`: `setIsConnected(false)`,
`setRealtimeEvents([])`, `setItems([])`; the `setMemoryKv`/`setCoords`/
`setMarker` calls are commented out in the source. -/
def disconnectConversation {Item KV Coord EMap : Type}
    (s : PageState Item KV Coord EMap) : PageState Item KV Coord EMap :=
  { s with isConnected := false, realtimeEvents := [], items := [] }

/-- The `realtime.event` log handler's state update: aggregate a repeated
event type into the last entry's `count`, otherwise append the event. -/
def handleRealtimeEvent (evs : List RealtimeEvent) (e : RealtimeEvent) :
    List RealtimeEvent :=
  match evs.getLast? with
  | some lastEvent =>
    if lastEvent.event.type = e.event.type then
      evs.dropLast ++ [{ lastEvent with count := some (lastEvent.count.getD 0 + 1) }]
    else evs ++ [e]
  | none => evs ++ [e]

/-! ## The `useHeygen` hook (`src/utils/heygen.ts`) -/

def heygenAvatarID : String := "336b72634e644335ad40bd56462fc780"

def heygenVoiceID : String := "613f8304431144918ed6a83d4b3e3196"

def heygenHeaders (apiKey : String) : List (String × String) :=
  [("Content-Type", "application/json"), ("X-Api-Key", apiKey)]

/-- The `streaming.new` POST with which `heygenStart` begins (its
continuation negotiates WebRTC, which is a browser API outside this
embedding).  The nested JSON body is flattened to its leaf fields. -/
def streamingNewRequest (apiKey serverUrl : String) : Request :=
  ⟨"POST", serverUrl ++ "/v1/streaming.new", heygenHeaders apiKey,
    [("quality", "high"), ("avatar_name", heygenAvatarID),
     ("voice_id", heygenVoiceID), ("background_color", "#FAFAFA")]⟩

/-- Requests issued by `heygenSendText`, given the current
`sessionInfoRef.current.session_id` (`none` models a null session).  An
empty text returns before the fetch; with a null session the body
construction throws inside the `try`, is caught, and nothing is sent. -/
def heygenSendTextReqs (apiKey serverUrl : String)
    (session : Option String) (texto : String) : List Request :=
  if texto.length = 0 then []
  else
    match session with
    | some sid =>
      [⟨"POST", serverUrl ++ "/v1/streaming.task", heygenHeaders apiKey,
        [("session_id", sid), ("text", texto)]⟩]
    | none => []

/-- Requests issued by `heygenEnd` (via `heygenCloseSession`), given the
current session id. -/
def heygenEndReqs (apiKey serverUrl : String) (session : Option String) :
    List Request :=
  match session with
  | some sid =>
    [⟨"POST", serverUrl ++ "/v1/streaming.stop", heygenHeaders apiKey,
      [("session_id", sid)]⟩]
  | none => []

/-- The record `useHeygen` returns: its four members, with the stateful
functions rendered as request traces parameterized by the session id. -/
structure HeygenHook where
  heygenStart : Request
  heygenEnd : Option String → List Request
  heygenSendText : Option String → String → List Request
  mediaElementRef : Option Unit

/-- The `useHeygen(apiKey, serverUrl)` hook: throws when either argument is
empty (falsy), otherwise returns the hook members. -/
def useHeygen (apiKey serverUrl : String) : Except String HeygenHook :=
  if apiKey = "" || serverUrl = "" then
    .error "Heygen -> Both apiKey and serverUrl are required."
  else
    .ok
      { heygenStart := streamingNewRequest apiKey serverUrl
        heygenEnd := heygenEndReqs apiKey serverUrl
        heygenSendText := heygenSendTextReqs apiKey serverUrl
        mediaElementRef := none }

/-! ## URL decomposition and the claim-side date rewrite -/

/-- Everything before the first `?` of a URL: its scheme, host and path.
Query parameters interpolated after the literal `?` cannot alter it. -/
def pathPart (s : String) : List Char :=
  s.data.takeWhile (fun c => c != '?')

/-- Does `/\s\d{2}:\d{2}:\d{2}/` match exactly the last nine characters? -/
def trailingTimeMatch (l : List Char) : Bool :=
  decide (9 ≤ l.length) && timeMatch (l.drop (l.length - 9))

/-- Formalisation of the claim's wording for the date rewrite, first step:
delete a TRAILING whitespace-plus-`hh:mm:ss` block (the code instead
deletes the first such block anywhere in the string). -/
def claimDeleteTrailingTime (l : List Char) : List Char :=
  if trailingTimeMatch l then l.take (l.length - 9) else l

/-- Formalisation of the claim's wording, second step: `DD/MM/YYYY`
becomes `MM/DD/YYYY` (when the remaining string is such a date). -/
def claimSwapFullDate (l : List Char) : List Char :=
  if l.length == 10 && dateMatch l then dateSwapHead l else l

/-- The claim's date transformation: delete a trailing time, then swap day
and month. -/
def claimFixDate (s : String) : String :=
  ⟨claimSwapFullDate (claimDeleteTrailingTime s.data)⟩

example : claimFixDate "03/04/2025 10:11:12" = "04/03/2025" := by decide
example : claimFixDate "1 11:11:11 22:22:22" = "1 11:11:11" := by decide

/-! ## Helper lemmas -/

theorem string_data_append (a b : String) : (a ++ b).data = a.data ++ b.data :=
  rfl

theorem string_mk_data (s : String) : (⟨s.data⟩ : String) = s := by
  cases s
  rfl

theorem takeWhile_append_left {α : Type} (p : α → Bool) (l1 l2 : List α)
    (h : l1.any (fun c => !(p c)) = true) :
    (l1 ++ l2).takeWhile p = l1.takeWhile p := by
  induction l1 with
  | nil => simp at h
  | cons c t ih =>
    by_cases hc : p c
    · simp only [List.any_cons, Bool.or_eq_true, hc] at h
      simp only [List.cons_append, List.takeWhile_cons, hc]
      rw [ih]
      simpa using h
    · simp [List.cons_append, List.takeWhile_cons, Bool.of_not_eq_true hc]

theorem pathPart_of_append (a b : String)
    (h : a.data.any (fun c => c == '?') = true) :
    pathPart (a ++ b) = a.data.takeWhile (fun c => c != '?') := by
  unfold pathPart
  rw [string_data_append]
  apply takeWhile_append_left
  simpa [bne] using h

theorem foldl_push_map {α β : Type} (f : α → β) (l : List α) (init : List β) :
    l.foldl (fun acc i => acc ++ [f i]) init = init ++ l.map f := by
  induction l generalizing init with
  | nil => simp
  | cons x t ih => simp [List.foldl_cons, ih]

theorem foldl_push_filter_map {α β : Type} (p : α → Bool) (f : α → β)
    (l : List α) (init : List β) :
    l.foldl (fun acc i => if p i then acc ++ [f i] else acc) init =
      init ++ (l.filter p).map f := by
  induction l generalizing init with
  | nil => simp
  | cons x t ih =>
    by_cases hx : p x
    · simp [List.foldl_cons, hx, ih]
    · simp [List.foldl_cons, hx, ih]

theorem phoneMatchA_length {l : List Char} (h : phoneMatchA l = true) :
    l.length = 12 := by
  match l with
  | [] => simp [phoneMatchA] at h
  | [c1] => simp [phoneMatchA] at h
  | [c1, c2] => simp [phoneMatchA] at h
  | c1 :: c2 :: c3 :: rest =>
    simp only [phoneMatchA, Bool.and_eq_true, beq_iff_eq] at h
    simp [h.1.2]

theorem phoneMatchB_length {l : List Char} (h : phoneMatchB l = true) :
    l.length = 11 := by
  match l with
  | [] => simp [phoneMatchB] at h
  | [c1] => simp [phoneMatchB] at h
  | c1 :: c2 :: rest =>
    simp only [phoneMatchB, Bool.and_eq_true, beq_iff_eq] at h
    simp [h.1.2]

theorem phoneMatchC_length {l : List Char} (h : phoneMatchC l = true) :
    l.length = 9 := by
  simp only [phoneMatchC, Bool.and_eq_true, beq_iff_eq] at h
  exact h.1

theorem phoneMatchA_tail {c : Char} {rest : List Char}
    (h : phoneMatchA (c :: rest) = true) : phoneMatchB rest = true := by
  match rest with
  | [] => simp [phoneMatchA] at h
  | [c2] => simp [phoneMatchA] at h
  | c2 :: c3 :: r =>
    simp only [phoneMatchA, Bool.and_eq_true, beq_iff_eq] at h
    obtain ⟨⟨⟨⟨-, h2⟩, h3⟩, h4⟩, h5⟩ := h
    simp [phoneMatchB, h2, h3, h4, h5]

theorem phoneMatchA_head {c : Char} {rest : List Char}
    (h : phoneMatchA (c :: rest) = true) : c = '+' := by
  match rest with
  | [] => simp [phoneMatchA] at h
  | [c2] => simp [phoneMatchA] at h
  | c2 :: c3 :: r =>
    simp only [phoneMatchA, Bool.and_eq_true, beq_iff_eq] at h
    exact h.1.1.1.1

theorem phoneMatchA_five {d : List Char} :
    phoneMatchA ('5' :: d) = false := by
  cases hh : phoneMatchA ('5' :: d) with
  | false => rfl
  | true => exact absurd (phoneMatchA_head hh) (by decide)

theorem hasSuffix55_of_matchB {l : List Char} (h : phoneMatchB l = true) :
    hasSuffix55 l = true := by
  match l with
  | [] => simp [phoneMatchB] at h
  | c :: rest => simp [hasSuffix55, h]

theorem phoneRepAux_cons_of_long {c : Char} {l : List Char}
    (h : 13 ≤ (c :: l).length) :
    phoneRepAux (c :: l) = c :: phoneRepAux l := by
  have hA : phoneMatchA (c :: l) = false := by
    cases hh : phoneMatchA (c :: l) with
    | false => rfl
    | true => have := phoneMatchA_length hh; omega
  have hB : phoneMatchB (c :: l) = false := by
    cases hh : phoneMatchB (c :: l) with
    | false => rfl
    | true => have := phoneMatchB_length hh; omega
  have hC : phoneMatchC (c :: l) = false := by
    cases hh : phoneMatchC (c :: l) with
    | false => rfl
    | true => have := phoneMatchC_length hh; omega
  simp [phoneRepAux, hA, hB, hC]

theorem phoneRep_plus55 (d : List Char) (hlen : d.length = 9)
    (hdig : d.all Char.isDigit = true) :
    ∀ pre : List Char, phoneRepAux (pre ++ '+' :: '5' :: '5' :: d) = pre ++ d := by
  intro pre
  induction pre with
  | nil =>
    have hA : phoneMatchA ('+' :: '5' :: '5' :: d) = true := by
      simp [phoneMatchA, hlen, hdig]
    simp [phoneRepAux, hA]
  | cons c pre ih =>
    rw [List.cons_append, phoneRepAux_cons_of_long ?_, ih]
    · rfl
    · simp only [List.length_cons, List.length_append, hlen]
      omega

theorem phoneRep_55 (d : List Char) (hlen : d.length = 9)
    (hdig : d.all Char.isDigit = true) :
    ∀ pre : List Char, pre.getLast? ≠ some '+' →
      phoneRepAux (pre ++ '5' :: '5' :: d) = pre ++ d := by
  intro pre
  induction pre with
  | nil =>
    intro _
    have hA : phoneMatchA ('5' :: '5' :: d) = false := phoneMatchA_five
    have hB : phoneMatchB ('5' :: '5' :: d) = true := by
      simp [phoneMatchB, hlen, hdig]
    simp [phoneRepAux, hA, hB]
  | cons c pre ih =>
    intro hlast
    cases pre with
    | nil =>
      have hc : c ≠ '+' := by simpa using hlast
      have hA : phoneMatchA (c :: '5' :: '5' :: d) = false := by
        simp [phoneMatchA, hc]
      have hB : phoneMatchB (c :: '5' :: '5' :: d) = false := by
        cases hh : phoneMatchB (c :: '5' :: '5' :: d) with
        | false => rfl
        | true =>
          have := phoneMatchB_length hh
          simp only [List.length_cons, hlen] at this
          omega
      have hC : phoneMatchC (c :: '5' :: '5' :: d) = false := by
        cases hh : phoneMatchC (c :: '5' :: '5' :: d) with
        | false => rfl
        | true =>
          have := phoneMatchC_length hh
          simp only [List.length_cons, hlen] at this
          omega
      have hA0 : phoneMatchA ('5' :: '5' :: d) = false := phoneMatchA_five
      have hB0 : phoneMatchB ('5' :: '5' :: d) = true := by
        simp [phoneMatchB, hlen, hdig]
      simp [phoneRepAux, hA, hB, hC, hA0, hB0]
    | cons c2 pre2 =>
      rw [List.cons_append, phoneRepAux_cons_of_long ?_,
        ih (by rwa [List.getLast?_cons_cons] at hlast)]
      · rfl
      · simp only [List.length_cons, List.length_append, hlen]
        omega

theorem phoneRep_noSuffix (l : List Char) (h : hasSuffix55 l = false) :
    phoneRepAux l = l := by
  induction l with
  | nil => rfl
  | cons c rest ih =>
    rw [show hasSuffix55 (c :: rest) =
        (phoneMatchB (c :: rest) || hasSuffix55 rest) from rfl,
      Bool.or_eq_false_iff] at h
    have hA : phoneMatchA (c :: rest) = false := by
      cases hh : phoneMatchA (c :: rest) with
      | false => rfl
      | true =>
        have hBrest := phoneMatchA_tail hh
        have := hasSuffix55_of_matchB hBrest
        rw [this] at h
        exact absurd h.2 (by simp)
    by_cases hC : phoneMatchC (c :: rest) = true
    · simp [phoneRepAux, hA, h.1, hC]
    · simp [phoneRepAux, hA, h.1, hC, ih h.2]

theorem hasSuffix55_iff (l : List Char) :
    hasSuffix55 l = true ↔
      ∃ pre d, l = pre ++ '5' :: '5' :: d ∧ d.length = 9 ∧
        d.all Char.isDigit = true := by
  induction l with
  | nil =>
    constructor
    · intro h
      simp [hasSuffix55] at h
    · rintro ⟨pre, d, hEq, -, -⟩
      simp at hEq
  | cons c rest ih =>
    constructor
    · intro h
      rw [show hasSuffix55 (c :: rest) =
          (phoneMatchB (c :: rest) || hasSuffix55 rest) from rfl,
        Bool.or_eq_true] at h
      cases h with
      | inl hB =>
        match rest, hB with
        | c2 :: r, hB =>
          simp only [phoneMatchB, Bool.and_eq_true, beq_iff_eq] at hB
          obtain ⟨⟨⟨h1, h2⟩, h3⟩, h4⟩ := hB
          exact ⟨[], r, by simp [h1, h2], h3, h4⟩
      | inr hS =>
        obtain ⟨pre, d, hEq, hlen, hdig⟩ := ih.mp hS
        exact ⟨c :: pre, d, by simp [hEq], hlen, hdig⟩
    · rintro ⟨pre, d, hEq, hlen, hdig⟩
      cases pre with
      | nil =>
        simp only [List.nil_append, List.cons.injEq] at hEq
        have hB : phoneMatchB (c :: rest) = true := by
          rw [hEq.1, hEq.2]
          simp [phoneMatchB, hlen, hdig]
        simp [hasSuffix55, hB]
      | cons p pre' =>
        simp only [List.cons_append, List.cons.injEq] at hEq
        have hS : hasSuffix55 rest = true :=
          ih.mpr ⟨pre', d, hEq.2, hlen, hdig⟩
        simp [hasSuffix55, hS]

/-! ## Claim theorems -/

/-- C1 counterexample: the `get_llmbuilder` tool handler returns without
issuing a single HTTP request, so not every registered tool is glued to a
REST call. -/
theorem C1_counterexample :
    ¬ 1 ≤ (get_llmbuilder "21974894586" "4D imobi").1.length := by
  decide

/-- C1 (amended): the four tools `generate_token`, `get_user_data`,
`get_payment_link` and `get_contacts` each issue exactly one outbound HTTP
request before returning, for every argument value and every response; the
registered tools `get_llmbuilder` and `requestAssistance` are no-op stubs
that issue no request and return the empty string. -/
theorem C1_amended_requests :
    (∀ phone token st, (generate_token phone token st).1.length = 1) ∧
    (∀ phone st rows, (get_user_data phone (st, rows)).1.length = 1) ∧
    (∀ y m phone idc idu st rows,
      (get_payment_link y m phone idc idu (st, rows)).1.length = 1) ∧
    (∀ phone idc st resp, (get_contacts phone idc (st, resp)).1.length = 1) ∧
    (∀ phone condomino, get_llmbuilder phone condomino = ([], .ok "")) ∧
    (∀ phone, requestAssistance phone = ([], .ok "")) := by
  refine ⟨?_, ?_, ?_, ?_, fun _ _ => rfl, fun _ => rfl⟩
  · intro phone token st
    unfold generate_token
    cases h : st.ok <;> simp [h]
  · intro phone st rows
    unfold get_user_data
    cases h : st.ok <;> simp [h]
  · intro y m phone idc idu st rows
    unfold get_payment_link
    cases h : st.ok <;> simp [h]
  · intro phone idc st resp
    unfold get_contacts
    cases h : st.ok <;> simp [h]

/-- C2: each of the four fetching tool handlers throws an `Error` whose
message contains the response status exactly when the response is not ok;
on an ok response it returns the aggregated `{ data: ... }` object
(`get_user_data`, `get_payment_link`, `get_contacts`) or the empty string
(`generate_token`). -/
theorem C2_error_iff_not_ok :
    (∀ phone token st, (generate_token phone token st).2 =
        if st.ok then .ok "" else .error (otpErrMsg st)) ∧
    (∀ phone st rows, (get_user_data phone (st, rows)).2 =
        if st.ok then .ok ⟨rows.map (mkCond (formatPhoneNumber phone))⟩
        else .error (reqErrMsg st)) ∧
    (∀ y m phone idc idu st rows,
      (get_payment_link y m phone idc idu (st, rows)).2 =
        if st.ok then
          .ok ⟨(rows.filter fun i => i.json.status.isSome).map
            fun i => mkCobranca i.json⟩
        else .error (reqErrMsg st)) ∧
    (∀ phone idc st resp, (get_contacts phone idc (st, resp)).2 =
        if st.ok then .ok ⟨resp.contatos.map mkContato⟩
        else .error (reqErrMsg st)) ∧
    (∀ st, (toString st.status).data <:+: (otpErrMsg st).data ∧
      (toString st.status).data <:+: (reqErrMsg st).data) := by
  refine ⟨?_, ?_, ?_, ?_, ?_⟩
  · intro phone token st
    unfold generate_token
    cases h : st.ok <;> simp [h]
  · intro phone st rows
    unfold get_user_data
    cases h : st.ok <;> simp [h, foldl_push_map]
  · intro y m phone idc idu st rows
    unfold get_payment_link
    cases h : st.ok <;> simp [h, foldl_push_filter_map]
  · intro phone idc st resp
    unfold get_contacts
    cases h : st.ok <;> simp [h, foldl_push_map]
  · intro st
    constructor
    · exact ⟨"Erro ao enviar OTP: ".data, (" " ++ st.statusText).data, by
        simp [otpErrMsg, string_data_append]⟩
    · exact ⟨"Erro na requisição: ".data, (" " ++ st.statusText).data, by
        simp [reqErrMsg, string_data_append]⟩

/-- C4: `formatPhoneNumber` deletes a terminal `+55`/`55` followed by
exactly nine digits (preferring the `+55` alternative, which sits one
position further left); any string not ending in nine digits immediately
preceded by `55` is returned unchanged — the bare nine-digit alternative
of the regex replaces the match by itself.  In particular the 11-digit
number `21974894586`, whose DDD is not 55, is returned unchanged. -/
theorem C4_formatPhoneNumber :
    (∀ pre d : List Char, d.length = 9 → d.all Char.isDigit = true →
      formatPhoneNumber ⟨pre ++ '+' :: '5' :: '5' :: d⟩ = ⟨pre ++ d⟩) ∧
    (∀ pre d : List Char, d.length = 9 → d.all Char.isDigit = true →
      pre.getLast? ≠ some '+' →
      formatPhoneNumber ⟨pre ++ '5' :: '5' :: d⟩ = ⟨pre ++ d⟩) ∧
    (∀ s : String, hasSuffix55 s.data = false → formatPhoneNumber s = s) ∧
    (∀ l : List Char, hasSuffix55 l = true ↔
      ∃ pre d, l = pre ++ '5' :: '5' :: d ∧ d.length = 9 ∧
        d.all Char.isDigit = true) ∧
    formatPhoneNumber "21974894586" = "21974894586" := by
  refine ⟨?_, ?_, ?_, hasSuffix55_iff, by decide⟩
  · intro pre d hlen hdig
    exact congrArg String.mk (phoneRep_plus55 d hlen hdig pre)
  · intro pre d hlen hdig hlast
    exact congrArg String.mk (phoneRep_55 d hlen hdig pre hlast)
  · intro s h
    calc formatPhoneNumber s = ⟨phoneRepAux s.data⟩ := rfl
      _ = ⟨s.data⟩ := congrArg String.mk (phoneRep_noSuffix s.data h)
      _ = s := string_mk_data s

/-- C4 witness: deleting the `55` of `2155974894586` keeps `21` and the
last nine digits. -/
theorem C4_formatPhoneNumber_witness :
    formatPhoneNumber ⟨['2', '1'] ++ '5' :: '5' :: "974894586".data⟩ =
      ⟨['2', '1'] ++ "974894586".data⟩ :=
  C4_formatPhoneNumber.2.1 ['2', '1'] "974894586".data (by decide) (by decide)
    (by decide)

theorem pathPart_unidadesUrl (idCondominio pesquisa : String) :
    pathPart (unidadesUrl idCondominio pesquisa) =
      "https://api.superlogica.net/v2/condor/unidades/index".data := by
  unfold unidadesUrl
  rw [pathPart_of_append _ _ (by decide)]
  decide

theorem pathPart_cobrancaUrl (idCondominio dtInicio dtFim idUnidade : String) :
    pathPart (cobrancaUrl idCondominio dtInicio dtFim idUnidade) =
      "https://api.superlogica.net/v2/condor/cobranca/index".data := by
  unfold cobrancaUrl
  rw [pathPart_of_append _ _ (by decide)]
  decide

/-- C3 counterexample: on a row whose `dt_geracao_recb` contains two
time blocks, the handler deletes the FIRST one, not the trailing one the
claim describes. -/
theorem C3_counterexample :
    ((get_payment_link 2025 5 "21974894586" "3" "452"
        (⟨200, "OK"⟩,
          [⟨⟨some "1", "1 11:11:11 22:22:22", "03/04/2025 10:11:12",
            "100.00", "", "", "3", "100.00", "pix", "link"⟩⟩])).2.toOption =
      some ⟨[⟨"1 22:22:22", "04/03/2025", "100.00", none, none, some "Pago",
        "100.00", "pix", "link"⟩]⟩) ∧
    claimFixDate "1 11:11:11 22:22:22" = "1 11:11:11" ∧
    ("1 22:22:22" : String) ≠ "1 11:11:11" := by
  exact ⟨by decide, by decide, by decide⟩

/-- C3 (amended): `get_payment_link` keeps exactly the rows whose
`item.json.status` is defined, in input order; `data_boleto` and
`vencimento` are obtained by deleting the FIRST whitespace-plus-`hh:mm:ss`
block and swapping the FIRST `DD/MM/YYYY` occurrence to `MM/DD/YYYY`
(non-global regex replaces), `valor`/`total`/`pix`/`link` are copied,
`juros`/`multa` are present iff the corresponding tax field is nonempty,
and `status` is present iff `fl_status_recb` is nonempty, equal to `Pago`
exactly when it is `"3"` and `Pendente` otherwise. -/
theorem C3_amended_payment_rows :
    ∀ (y m : Int) (phone idc idu : String) (st : HttpStatus)
      (rows : List CobItem),
      ((get_payment_link y m phone idc idu (st, rows)).2 =
        if st.ok then
          .ok ⟨(rows.filter fun i => i.json.status.isSome).map
            fun i => mkCobranca i.json⟩
        else .error (reqErrMsg st)) ∧
      ∀ r : CobRow, mkCobranca r =
        { data_boleto := ⟨swapDateList (delTimeList r.dt_geracao_recb.data)⟩
          vencimento := ⟨swapDateList (delTimeList r.dt_vencimento_recb.data)⟩
          valor := r.vl_emitido_recb
          juros := if r.nm_txjuros_cond ≠ "" then some r.nm_txjuros_cond
            else none
          multa := if r.nm_txmulta_cond ≠ "" then some r.nm_txmulta_cond
            else none
          status := if r.fl_status_recb ≠ "" then
              some (if r.fl_status_recb = "3" then "Pago" else "Pendente")
            else none
          total := r.vl_total_recb
          pix := r.st_pixqrcode_recb
          link := r.link_segundavia } := by
  intro y m phone idc idu st rows
  refine ⟨?_, fun r => rfl⟩
  unfold get_payment_link
  cases h : st.ok <;> simp [h, foldl_push_filter_map]

/-- C5: for all argument values and responses, the scheme, host and path
of the URL each fetching handler requests are fixed: `get_user_data` and
`get_contacts` GET `unidades/index`, `get_payment_link` GETs
`cobranca/index`, and `generate_token` POSTs to the fixed z-api
`send-button-otp` URL; arguments only reach the part after the literal
`?` (or, for `generate_token`, the body). -/
theorem C5_fixed_endpoints :
    (∀ phone token st,
      (generate_token phone token st).1.map Request.method = ["POST"] ∧
      (generate_token phone token st).1.map Request.url = [zApiUrl]) ∧
    (∀ phone st rows,
      (get_user_data phone (st, rows)).1.map Request.method = ["GET"] ∧
      (get_user_data phone (st, rows)).1.map (fun r => pathPart r.url) =
        ["https://api.superlogica.net/v2/condor/unidades/index".data]) ∧
    (∀ y m phone idc idu st rows,
      (get_payment_link y m phone idc idu (st, rows)).1.map Request.method =
        ["GET"] ∧
      (get_payment_link y m phone idc idu (st, rows)).1.map
          (fun r => pathPart r.url) =
        ["https://api.superlogica.net/v2/condor/cobranca/index".data]) ∧
    (∀ phone idc st resp,
      (get_contacts phone idc (st, resp)).1.map Request.method = ["GET"] ∧
      (get_contacts phone idc (st, resp)).1.map (fun r => pathPart r.url) =
        ["https://api.superlogica.net/v2/condor/unidades/index".data]) := by
  refine ⟨?_, ?_, ?_, ?_⟩
  · intro phone token st
    unfold generate_token
    cases h : st.ok <;> simp [h]
  · intro phone st rows
    unfold get_user_data
    cases h : st.ok <;> simp [h, pathPart_unidadesUrl]
  · intro y m phone idc idu st rows
    unfold get_payment_link
    cases h : st.ok <;> simp [h, pathPart_cobrancaUrl]
  · intro phone idc st resp
    unfold get_contacts
    cases h : st.ok <;> simp [h, pathPart_unidadesUrl]

/-- C6: `connectConversation` sets `isConnected` and resets
`realtimeEvents`; `disconnectConversation` clears `isConnected`,
`realtimeEvents` and `items` and leaves `memoryKv`, `coords`, `marker`,
`userData`, `expandedEvents` and `canPushToTalk` unchanged. -/
theorem C6_connect_disconnect :
    ∀ (Item KV Coord EMap : Type) (s : PageState Item KV Coord EMap)
      (clientItems : List Item),
      (connectConversation s clientItems).isConnected = true ∧
      (connectConversation s clientItems).realtimeEvents = [] ∧
      (disconnectConversation s).isConnected = false ∧
      (disconnectConversation s).realtimeEvents = [] ∧
      (disconnectConversation s).items = [] ∧
      (disconnectConversation s).memoryKv = s.memoryKv ∧
      (disconnectConversation s).coords = s.coords ∧
      (disconnectConversation s).marker = s.marker ∧
      (disconnectConversation s).userData = s.userData ∧
      (disconnectConversation s).expandedEvents = s.expandedEvents ∧
      (disconnectConversation s).canPushToTalk = s.canPushToTalk :=
  fun _ _ _ _ _ _ =>
    ⟨rfl, rfl, rfl, rfl, rfl, rfl, rfl, rfl, rfl, rfl, rfl⟩

/-- C7: on an ok response, `get_user_data` returns `{ data: arr }` with one
element per response row in response order, each element copying the six
row fields and carrying `telefone = formatPhoneNumber phone`. -/
theorem C7_get_user_data (phone : String) (st : HttpStatus)
    (rows : List UnidadeRow) (h : st.ok = true) :
    (get_user_data phone (st, rows)).2 =
      .ok ⟨rows.map (mkCond (formatPhoneNumber phone))⟩ ∧
    (rows.map (mkCond (formatPhoneNumber phone))).length = rows.length ∧
    ∀ r, mkCond (formatPhoneNumber phone) r =
      ⟨r.st_fantasia_cond, r.cpf_proprietario, r.email_proprietario,
        r.st_unidade_uni, r.id_unidade_uni, r.id_condominio_cond,
        formatPhoneNumber phone⟩ := by
  refine ⟨?_, by simp, fun r => rfl⟩
  unfold get_user_data
  simp [h, foldl_push_map]

/-- C7 witness at a concrete row of the `unidades/index` response. -/
theorem C7_get_user_data_witness :
    (get_user_data "+55974894586"
        (⟨200, "OK"⟩,
          [⟨"4D imobi", "83919163753", "robert@livingnet.com.br", "005",
            "452", "3"⟩])).2 =
      .ok ⟨[⟨"4D imobi", "83919163753", "robert@livingnet.com.br", "005",
        "452", "3", "974894586"⟩]⟩ :=
  ((C7_get_user_data "+55974894586" ⟨200, "OK"⟩
      [⟨"4D imobi", "83919163753", "robert@livingnet.com.br", "005", "452",
        "3"⟩] (by decide)).1).trans
    (congrArg Except.ok (by decide))

/-- C8: the billing request's window is the 5th of month `m - 2` through
the 5th of month `m + 1` (`m` is the 0-based `getMonth()` index),
normalized across year boundaries by the `Date` constructor and rendered
as en-US locale date strings. -/
theorem C8_billing_window (y m : Int) (h0 : 0 ≤ m) (h11 : m ≤ 11)
    (phone idc idu : String) (st : HttpStatus) (rows : List CobItem) :
    (get_payment_link y m phone idc idu (st, rows)).1 =
      [⟨"GET", cobrancaUrl idc (dtInicioStr y m) (dtFimStr y m) idu,
        superHeaders, []⟩] ∧
    jsDateNorm y (m - 2) = (if m < 2 then (y - 1, m + 10) else (y, m - 2)) ∧
    jsDateNorm y (m + 1) = (if m = 11 then (y + 1, 0) else (y, m + 1)) ∧
    dtInicioStr y m =
      enUSDateString (jsDateNorm y (m - 2)).1 (jsDateNorm y (m - 2)).2 5 ∧
    dtFimStr y m =
      enUSDateString (jsDateNorm y (m + 1)).1 (jsDateNorm y (m + 1)).2 5 := by
  refine ⟨?_, ?_, ?_, rfl, rfl⟩
  · unfold get_payment_link
    cases hok : st.ok <;> simp [hok]
  · interval_cases m <;> simp [jsDateNorm, Prod.ext_iff] <;> omega
  · interval_cases m <;> simp [jsDateNorm, Prod.ext_iff]

/-- C8 witness: in January (month index 0) the window starts on Nov 5 of
the previous year. -/
theorem C8_billing_window_witness :
    jsDateNorm 2025 (0 - 2) = (2024, 10) := by
  have h := (C8_billing_window 2025 0 (by decide) (by decide) "p" "1" "2"
    ⟨200, "OK"⟩ []).2.1
  norm_num at h
  exact h

theorem handleRealtimeEvent_nil (e : RealtimeEvent) :
    handleRealtimeEvent [] e = [e] := rfl

theorem handleRealtimeEvent_of_getLast {evs : List RealtimeEvent}
    {lastEvent : RealtimeEvent} (e : RealtimeEvent)
    (hL : evs.getLast? = some lastEvent) :
    handleRealtimeEvent evs e =
      if lastEvent.event.type = e.event.type then
        evs.dropLast ++
          [{ lastEvent with count := some (lastEvent.count.getD 0 + 1) }]
      else evs ++ [e] := by
  unfold handleRealtimeEvent
  rw [hL]

/-- C9: the `realtime.event` log handler preserves the invariant that no
two consecutive entries share an `event.type`; a repeated type keeps the
length and bumps the last entry's count (`count || 0` starts it at 1 when
absent), any other event is appended as received. -/
theorem C9_realtime_event_log :
    ∀ (evs : List RealtimeEvent) (e : RealtimeEvent),
      (List.Chain' (fun a b => a.event.type ≠ b.event.type) evs →
        List.Chain' (fun a b => a.event.type ≠ b.event.type)
          (handleRealtimeEvent evs e)) ∧
      (evs = [] → handleRealtimeEvent evs e = [e]) ∧
      ∀ lastEvent, evs.getLast? = some lastEvent →
        (lastEvent.event.type = e.event.type →
          (handleRealtimeEvent evs e).length = evs.length ∧
          handleRealtimeEvent evs e =
            evs.dropLast ++
              [{ lastEvent with
                  count := some (lastEvent.count.getD 0 + 1) }]) ∧
        (lastEvent.event.type ≠ e.event.type →
          handleRealtimeEvent evs e = evs ++ [e]) := by
  intro evs e
  refine ⟨?_, ?_, ?_⟩
  · intro hch
    cases hL : evs.getLast? with
    | none =>
      have hnil : evs = [] := List.getLast?_eq_none_iff.mp hL
      subst hnil
      simp [handleRealtimeEvent_nil]
    | some lastEvent =>
      rw [handleRealtimeEvent_of_getLast e hL]
      obtain ⟨l', rfl⟩ := List.getLast?_eq_some_iff.mp hL
      by_cases ht : lastEvent.event.type = e.event.type
      · rw [if_pos ht, List.dropLast_concat]
        rw [List.chain'_append] at hch ⊢
        refine ⟨hch.1, List.chain'_singleton _, ?_⟩
        intro x hx y hy
        simp only [List.head?_cons, Option.mem_def, Option.some.injEq] at hy
        subst hy
        exact hch.2.2 x hx lastEvent (by simp)
      · rw [if_neg ht]
        rw [List.chain'_append]
        refine ⟨hch, List.chain'_singleton _, ?_⟩
        intro x hx y hy
        simp only [List.head?_cons, Option.mem_def, Option.some.injEq] at hy
        subst hy
        have hx' : x = lastEvent := by
          rw [Option.mem_def, List.getLast?_concat] at hx
          exact ((Option.some.injEq _ _).mp hx.symm)
        subst hx'
        exact ht
  · intro hnil
    subst hnil
    rfl
  · intro lastEvent hL
    constructor
    · intro ht
      have h2 := handleRealtimeEvent_of_getLast e hL
      rw [if_pos ht] at h2
      refine ⟨?_, h2⟩
      obtain ⟨l', rfl⟩ := List.getLast?_eq_some_iff.mp hL
      rw [h2, List.dropLast_concat]
      simp
    · intro ht
      have h2 := handleRealtimeEvent_of_getLast e hL
      rwa [if_neg ht] at h2

/-- C9 witness: a repeated `response.done` event is aggregated into the
last entry with `count = 1`. -/
theorem C9_realtime_event_log_witness :
    handleRealtimeEvent [⟨"t1", "server", none, ⟨"response.done", []⟩⟩]
        ⟨"t2", "server", none, ⟨"response.done", []⟩⟩ =
      [⟨"t1", "server", some 1, ⟨"response.done", []⟩⟩] := by
  have h := ((C9_realtime_event_log
      [⟨"t1", "server", none, ⟨"response.done", []⟩⟩]
      ⟨"t2", "server", none, ⟨"response.done", []⟩⟩).2.2
      ⟨"t1", "server", none, ⟨"response.done", []⟩⟩ rfl).1 rfl
  simpa using h.2

/-- C10: `useHeygen` throws exactly the documented error iff `apiKey` or
`serverUrl` is empty; with both nonempty it returns the hook record
(members `heygenStart`, `heygenEnd`, `heygenSendText`, `mediaElementRef`),
and `heygenSendText` issues no HTTP request on an empty text. -/
theorem C10_useHeygen :
    (∀ apiKey serverUrl, (useHeygen apiKey serverUrl =
        .error "Heygen -> Both apiKey and serverUrl are required.") ↔
      (apiKey = "" ∨ serverUrl = "")) ∧
    (∀ apiKey serverUrl, apiKey ≠ "" → serverUrl ≠ "" →
      ∃ h : HeygenHook, useHeygen apiKey serverUrl = .ok h) ∧
    (∀ apiKey serverUrl h, useHeygen apiKey serverUrl = .ok h →
      ∀ session, h.heygenSendText session "" = []) := by
  refine ⟨?_, ?_, ?_⟩
  · intro a s
    unfold useHeygen
    by_cases ha : a = ""
    · simp [ha]
    · by_cases hs : s = "" <;> simp [ha, hs]
  · intro a s ha hs
    refine ⟨{ heygenStart := streamingNewRequest a s
              heygenEnd := heygenEndReqs a s
              heygenSendText := heygenSendTextReqs a s
              mediaElementRef := none }, ?_⟩
    simp [useHeygen, ha, hs]
  · intro a s h hok session
    unfold useHeygen at hok
    split at hok
    · simp at hok
    · rw [Except.ok.injEq] at hok
      rw [← hok]
      rfl

/-- C10 witness: an empty apiKey throws, and with both arguments nonempty
`heygenSendText` on an empty text sends nothing. -/
theorem C10_useHeygen_witness :
    useHeygen "" "https://api.heygen.com" =
      .error "Heygen -> Both apiKey and serverUrl are required." ∧
    ((useHeygen "NGIw" "https://api.heygen.com").toOption.map
      (fun h => h.heygenSendText (some "sid") "")) = some [] := by
  constructor
  · exact (C10_useHeygen.1 "" "https://api.heygen.com").mpr (Or.inl rfl)
  · obtain ⟨h, hok⟩ := C10_useHeygen.2.1 "NGIw" "https://api.heygen.com"
      (by decide) (by decide)
    have hsend := C10_useHeygen.2.2 "NGIw" "https://api.heygen.com" h hok
      (some "sid")
    rw [hok]
    calc (Except.ok h).toOption.map
          (fun h => h.heygenSendText (some "sid") "")
        = some (h.heygenSendText (some "sid") "") := rfl
      _ = some [] := by rw [hsend]
